import Mathlib

/-!
Verification development for the LegacyLabs repository.

The repository's sources contain a React frontend (upload dialog, auth
store) plus marketing documents.  The narrative-selection core
(extractor, classifier, composer) is specified but has no implementation
under the sources, so it is modelled from the spec; the frontend parts
are embedded directly from the TypeScript sources.
-/

namespace LegacyLabs

/-! ## Derived facts and predicate language (spec §3, §4.2) -/

/-- Modelled from the spec: the value of one derived fact (numeric facts such
as age at death or sibling count, textual facts such as birth country). -/
inductive FactValue
  | nat (n : Nat)
  | str (s : String)
deriving DecidableEq, Repr

/-- Modelled from the spec: a subject's derived-fact set, a finite map from
fact names to values (the arena of facts of the design notes). -/
abbrev Facts := List (String × FactValue)

/-- Modelled from the spec: look a named derived fact up; `none` when the
fact is absent. -/
def lookupFact (fs : Facts) (name : String) : Option FactValue :=
  match fs with
  | [] => none
  | (k, v) :: rest => if k = name then some v else lookupFact rest name

/-- Modelled from the spec: three-valued predicate results
(true / false / unknown). -/
inductive Tri
  | tru
  | fls
  | unknown
deriving DecidableEq, Repr

/-- Modelled from the spec: Kleene conjunction over three-valued results. -/
def Tri.and : Tri → Tri → Tri
  | .fls, _ => .fls
  | _, .fls => .fls
  | .unknown, _ => .unknown
  | _, .unknown => .unknown
  | .tru, .tru => .tru

/-- Modelled from the spec: the predicate language, a small typed expression
tree of simple comparisons over named derived facts (equality, numeric
threshold, boolean presence) closed under conjunction. -/
inductive Pred
  | eqFact (name : String) (v : FactValue)
  | geFact (name : String) (n : Nat)
  | hasFact (name : String)
  | conj (p q : Pred)
deriving DecidableEq, Repr

/-- Modelled from the spec: the predicate interpreter.  Total and
side-effect-free by construction; a comparison over an absent required fact
evaluates to `unknown`, a presence test is always true/false. -/
def evalPred (p : Pred) (fs : Facts) : Tri :=
  match p with
  | .eqFact name v =>
    match lookupFact fs name with
    | none => .unknown
    | some w => if w = v then .tru else .fls
  | .geFact name n =>
    match lookupFact fs name with
    | none => .unknown
    | some (.nat k) => if n ≤ k then .tru else .fls
    | some (.str _) => .unknown
  | .hasFact name =>
    match lookupFact fs name with
    | none => .fls
    | some _ => .tru
  | .conj p q => (evalPred p fs).and (evalPred q fs)

/-- Modelled from the spec: the derived-fact names a predicate reads, used
for provenance on emitted blocks. -/
def predNames : Pred → List String
  | .eqFact n _ => [n]
  | .geFact n _ => [n]
  | .hasFact n => [n]
  | .conj p q => predNames p ++ predNames q

/-! ## Theme registry (spec §3, §6) -/

/-- Modelled from the spec: a theme, a named rule pairing a trigger predicate
with the ordered narrative-block list it contributes and a declared
priority (smaller number ranks earlier). -/
structure Theme where
  name : String
  pred : Pred
  blocks : List String
  priority : Nat
deriving DecidableEq, Repr

/-- Modelled from the spec: the raw registry configuration as found on disk;
the designated default block sequence may be missing, which loading must
reject. -/
structure RawRegistry where
  themes : List Theme
  defaultBlocks : Option (List String)

/-- Modelled from the spec: a validated registry.  The theme list is in
declaration order; the default block sequence is present. -/
structure Registry where
  themes : List Theme
  defaultBlocks : List String

/-- Modelled from the spec: fatal configuration-level errors detected at
process start-up. -/
inductive ConfigError
  | missingDefaultBlocks
deriving DecidableEq, Repr

/-- Modelled from the spec: registry loading at process start-up.  A missing
(or empty, which could never satisfy the never-empty-Outline guarantee)
default block sequence is a fatal configuration error here, before any
document is accepted. -/
def loadRegistry (raw : RawRegistry) : Except ConfigError Registry :=
  match raw.defaultBlocks with
  | none => .error .missingDefaultBlocks
  | some [] => .error .missingDefaultBlocks
  | some (b :: bs) => .ok ⟨raw.themes, b :: bs⟩

/-! ## Classifier (spec §4.2) -/

/-- Modelled from the spec: a theme together with its registry declaration
index, the tie-break key for equal priorities. -/
structure IndexedTheme where
  idx : Nat
  theme : Theme
deriving DecidableEq, Repr

/-- Modelled from the spec: the registry's themes paired with their
declaration indices. -/
def enumThemes (ts : List Theme) : List IndexedTheme :=
  ts.enum.map (fun p => ⟨p.1, p.2⟩)

/-- Modelled from the spec: the classifier's ordering on themes — by declared
priority, ties broken by registry declaration order. -/
def themeLE (a b : IndexedTheme) : Prop :=
  a.theme.priority < b.theme.priority ∨
    (a.theme.priority = b.theme.priority ∧ a.idx ≤ b.idx)

instance : DecidableRel themeLE := fun a b =>
  inferInstanceAs (Decidable (_ ∨ _ ∧ _))

instance : IsTotal IndexedTheme themeLE where
  total a b := by
    rcases Nat.lt_trichotomy a.theme.priority b.theme.priority with h | h | h
    · exact Or.inl (Or.inl h)
    · rcases Nat.le_total a.idx b.idx with hi | hi
      · exact Or.inl (Or.inr ⟨h, hi⟩)
      · exact Or.inr (Or.inr ⟨h.symm, hi⟩)
    · exact Or.inr (Or.inl h)

instance : IsTrans IndexedTheme themeLE where
  trans a b c hab hbc := by
    rcases hab with hab | ⟨hab, hab2⟩ <;> rcases hbc with hbc | ⟨hbc, hbc2⟩
    · exact Or.inl (hab.trans hbc)
    · exact Or.inl (hbc ▸ hab)
    · exact Or.inl (hab ▸ hbc)
    · exact Or.inr ⟨hab.trans hbc, hab2.trans hbc2⟩

/-- Modelled from the spec: the registry's themes in classifier order —
priority ranking first, registry declaration order within equal priority. -/
def orderedThemes (reg : Registry) : List IndexedTheme :=
  List.insertionSort themeLE (enumThemes reg.themes)

/-- Modelled from the spec: the classifier.  For one subject's derived facts
it returns the ordered list of matched themes: those whose predicate
evaluates to true (unknown is not a match), in priority order with
declaration-order tie-break. -/
def classify (reg : Registry) (fs : Facts) : List IndexedTheme :=
  (orderedThemes reg).filter (fun t => evalPred t.theme.pred fs == Tri.tru)

/-! ## Composer (spec §4.3) -/

/-- Modelled from the spec: stable de-duplication — the first occurrence of
each block identifier is kept at its position, later duplicates are dropped
and the remaining blocks are not reordered. -/
def dedupFirst : List String → List String
  | [] => []
  | a :: l => a :: dedupFirst (l.filter (fun b => b != a))
termination_by l => l.length
decreasing_by
  simpa using Nat.lt_succ_of_le (List.length_filter_le _ l)

/-- Modelled from the spec: the concatenation of the narrative-block lists of
a list of matched themes, in the classifier's theme order. -/
def blocksOfThemes (ts : List IndexedTheme) : List String :=
  (ts.map (fun t => t.theme.blocks)).flatten

/-- Modelled from the spec: per-subject block composition — concatenate the
matched themes' block lists in theme-priority order and de-duplicate
keeping first occurrences; with no matched theme, substitute the
registry's designated default block sequence. -/
def composeSubject (reg : Registry) (matched : List IndexedTheme) : List String :=
  match matched with
  | [] => reg.defaultBlocks
  | _ :: _ => dedupFirst (blocksOfThemes matched)

/-- Modelled from the spec: the supporting fact bindings justifying a
subject's blocks — the derived facts read by the matched themes'
predicates, with their values. -/
def supportOf (fs : Facts) (matched : List IndexedTheme) : Facts :=
  ((matched.map (fun t => predNames t.theme.pred)).flatten).foldr
    (fun n acc =>
      match lookupFact fs n with
      | some v => (n, v) :: acc
      | none => acc) []

/-- Modelled from the spec: the Outline hand-off artifact — per-subject
ordered, de-duplicated block identifiers with the supporting facts that
justified them. -/
structure Outline where
  subject : String
  blocks : List String
  support : Facts
deriving DecidableEq, Repr

/-! ## Extractor (spec §4.1) -/

/-- Modelled from the spec: a raw parsed event (typed tag, possibly partial
date as an optional year, optional hierarchical place string). -/
structure RawEvent where
  tag : String
  year : Option Nat
  place : Option String
deriving DecidableEq, Repr

/-- Modelled from the spec: a raw parsed individual record. -/
structure RawIndividual where
  id : String
  sex : Option String
  birth : Option RawEvent
  death : Option RawEvent
  events : List RawEvent
deriving DecidableEq, Repr

/-- Modelled from the spec: a raw parsed family (union) record; children are
kept in source order (birth order). -/
structure RawFamily where
  id : String
  husband : Option String
  wife : Option String
  children : List String
deriving DecidableEq, Repr

/-- Modelled from the spec: a parsed lineage-linked document. -/
structure Document where
  individuals : List RawIndividual
  families : List RawFamily
deriving DecidableEq, Repr

/-- Modelled from the spec: fatal document-level extraction errors. -/
inductive ExtractError
  | malformedDocument
  | unsupportedEncoding
  | duplicateIdentifier
deriving DecidableEq, Repr

/-- Modelled from the spec: the country component of a hierarchical place
string (last comma-separated component, trimmed). -/
def countryOf (p : String) : String :=
  match (p.splitOn ",").getLast? with
  | some c => c.trim
  | none => p.trim

/-- Modelled from the spec: the sibling count of an individual — the number
of other children in the first family listing the individual as a child. -/
def siblingCount (d : Document) (iid : String) : Option Nat :=
  match d.families.find? (fun f => f.children.contains iid) with
  | some f => some (f.children.length - 1)
  | none => none

/-- Modelled from the spec: birth year of an individual, when recorded. -/
def birthYearOf (d : Document) (iid : String) : Option Nat :=
  match d.individuals.find? (fun i => i.id = iid) with
  | some i => i.birth.bind (fun e => e.year)
  | none => none

/-- Modelled from the spec: the generation gap of an individual — the years
between a parent's birth and the individual's own, when both are known. -/
def generationGap (d : Document) (i : RawIndividual) : Option Nat :=
  match d.families.find? (fun f => f.children.contains i.id) with
  | none => none
  | some f =>
    match i.birth.bind (fun e => e.year) with
    | none => none
    | some by0 =>
      match (f.husband.bind (birthYearOf d)).orElse
          (fun _ => f.wife.bind (birthYearOf d)) with
      | none => none
      | some py => some (by0 - py)

/-- Modelled from the spec: the derived facts of one individual — age at
death, sibling count, birth/death country, an immigration marker when the
two countries are known and differ, and the generation gap. -/
def individualFacts (d : Document) (i : RawIndividual) : Facts :=
  let ageAtDeath :=
    match i.birth.bind (fun e => e.year), i.death.bind (fun e => e.year) with
    | some b, some dy => [("age_at_death", FactValue.nat (dy - b))]
    | _, _ => []
  let sibs :=
    match siblingCount d i.id with
    | some n => [("sibling_count", FactValue.nat n)]
    | none => []
  let bc :=
    match i.birth.bind (fun e => e.place) with
    | some p => [("birth_country", FactValue.str (countryOf p))]
    | none => []
  let dc :=
    match i.death.bind (fun e => e.place) with
    | some p => [("death_country", FactValue.str (countryOf p))]
    | none => []
  let imm :=
    match i.birth.bind (fun e => e.place), i.death.bind (fun e => e.place) with
    | some pb, some pd =>
      if countryOf pb ≠ countryOf pd then [("immigrated", FactValue.nat 1)] else []
    | _, _ => []
  let gap :=
    match generationGap d i with
    | some g => [("generation_gap", FactValue.nat g)]
    | none => []
  ageAtDeath ++ sibs ++ bc ++ dc ++ imm ++ gap

/-- Modelled from the spec: the derived facts of one family — child count
and marriage presence. -/
def familyFacts (f : RawFamily) : Facts :=
  [("child_count", FactValue.nat f.children.length)]

/-- Modelled from the spec: a classification subject (an individual or a
family) with its derived-fact set. -/
structure Subject where
  id : String
  facts : Facts
deriving DecidableEq, Repr

/-- Modelled from the spec: the extracted graph — the subjects in document
order plus the collected recoverable warnings (dangling child references). -/
structure Graph where
  subjects : List Subject
  warnings : List String
deriving DecidableEq, Repr

/-- Modelled from the spec: the identifiers of the document's individuals,
in document order. -/
def individualIds (d : Document) : List String :=
  d.individuals.map (fun i => i.id)

/-- Modelled from the spec: referential-integrity warnings for family
children absent from the individuals set (recoverable, subject-level). -/
def integrityWarnings (d : Document) : List String :=
  (d.families.map (fun f =>
    (f.children.filter (fun c => !((individualIds d).contains c))).map
      (fun c => "ReferentialIntegrityWarning: " ++ f.id ++ " -> " ++ c))).flatten

/-- Modelled from the spec: build the typed graph from a document whose
identifiers are already known to be unique. -/
def buildGraph (d : Document) : Graph :=
  { subjects :=
      d.individuals.map (fun i => ⟨i.id, individualFacts d i⟩) ++
        d.families.map (fun f => ⟨f.id, familyFacts f⟩)
    warnings := integrityWarnings d }

/-- Modelled from the spec: the extractor.  A document with duplicate
individual identifiers fails with `duplicateIdentifier` instead of silently
overwriting; otherwise the typed graph is produced. -/
def extract (d : Document) : Except ExtractError Graph :=
  if (individualIds d).Nodup then .ok (buildGraph d)
  else .error .duplicateIdentifier

/-! ## Pipeline and serialization (spec §2, §8) -/

/-- Modelled from the spec: compose one subject's Outline from its matched
themes (or the default sequence) with supporting facts attached. -/
def composeOutline (reg : Registry) (s : Subject) : Outline :=
  let matched := classify reg s.facts
  ⟨s.id, composeSubject reg matched, supportOf s.facts matched⟩

/-- Modelled from the spec: the whole extract → classify → compose pipeline;
fatal extraction errors abort the document and no partial Outline is
produced. -/
def pipeline (d : Document) (reg : Registry) : Except ExtractError (List Outline) :=
  (extract d).map (fun g => g.subjects.map (composeOutline reg))

/-- Modelled from the spec: byte serialization of one fact binding. -/
def serializeFact : String × FactValue → String
  | (n, .nat k) => n ++ "=" ++ toString k
  | (n, .str s) => n ++ "=" ++ s

/-- Modelled from the spec: byte serialization of one Outline, the hand-off
contract to the external generation service. -/
def serializeOutline (o : Outline) : String :=
  o.subject ++ "|" ++ String.intercalate "," o.blocks ++ "|" ++
    String.intercalate "," (o.support.map serializeFact)

/-- Modelled from the spec: byte serialization of a whole pipeline result. -/
def serializeResult : Except ExtractError (List Outline) → String
  | .error .malformedDocument => "error:MalformedDocument"
  | .error .unsupportedEncoding => "error:UnsupportedEncoding"
  | .error .duplicateIdentifier => "error:DuplicateIdentifier"
  | .ok os => String.intercalate ";" (os.map serializeOutline)

/-! ## Frontend: GEDCOM upload dialog
    (src/frontend/src/components/GedcomUpload.tsx) -/

/-- A file as seen by the browser: name and size in bytes. -/
structure FileInfo where
  name : String
  size : Nat
deriving DecidableEq, Repr

/-- The `useDropzone` options of the upload dialog. -/
structure DropzoneOptions where
  acceptExts : List String
  maxFiles : Nat
  maxSize : Option Nat
deriving DecidableEq, Repr

/-- The options passed to `useDropzone` in GedcomUpload.tsx (lines 60-66):
the accept map lists the .ged and .gedcom extensions and maxFiles is 1;
no maxSize option is set. -/
def gedcomDropzoneOptions : DropzoneOptions :=
  ⟨[".ged", ".gedcom"], 1, none⟩

/-- Suffix test on strings, by characters. -/
def strEndsWith (s suffix : String) : Bool :=
  suffix.data.isSuffixOf s.data

/-- Lower-casing of a string, by characters (for case-insensitive extension
matching). -/
def strToLower (s : String) : String :=
  ⟨s.data.map Char.toLower⟩

/-- Drop the last `n` characters of a string. -/
def strDropRight (s : String) (n : Nat) : String :=
  ⟨s.data.take (s.data.length - n)⟩

/-- react-dropzone's acceptance test for one file under the given options:
the name must end in an accepted extension, and the size must not exceed
maxSize when one is configured (none means unlimited, the library
default). -/
def dropzoneAccepts (opts : DropzoneOptions) (f : FileInfo) : Bool :=
  opts.acceptExts.any (fun e => strEndsWith f.name e) &&
    (match opts.maxSize with
     | none => true
     | some m => decide (f.size ≤ m))

/-- The component state of GedcomUpload: the selected file, the project
title and the pending flag of the createProject mutation. -/
structure UploadState where
  file : Option FileInfo
  projectTitle : String
  isPending : Bool
deriving DecidableEq, Repr

/-- The multipart form data sent by the createProject mutation:
gedcom_file and title (GedcomUpload.tsx lines 71-73). -/
structure UploadFormData where
  gedcomFile : FileInfo
  title : String
deriving DecidableEq, Repr

/-- The filename-to-title step of onDrop (line 55): strip a trailing .ged
or .gedcom extension, case-insensitively. -/
def stripGedExt (name : String) : String :=
  if strEndsWith (strToLower name) ".gedcom" then strDropRight name 7
  else if strEndsWith (strToLower name) ".ged" then strDropRight name 4
  else name

/-- onDrop (GedcomUpload.tsx lines 49-58): with at least one accepted file,
store the first one and derive the project title from its filename. -/
def onDrop (s : UploadState) (acceptedFiles : List FileInfo) : UploadState :=
  match acceptedFiles with
  | [] => s
  | f :: _ => { s with file := some f, projectTitle := stripGedExt f.name }

/-- handleSubmit (GedcomUpload.tsx lines 68-76): return early when no file
is selected or the title is falsy (the empty string); otherwise build the
form data for the createProject mutation. -/
def handleSubmit (s : UploadState) : Option UploadFormData :=
  match s.file with
  | none => none
  | some f => if s.projectTitle = "" then none else some ⟨f, s.projectTitle⟩

/-- The disabled condition of the Create Documentary button
(GedcomUpload.tsx line 233). -/
def createButtonDisabled (s : UploadState) : Bool :=
  s.file.isNone || (s.projectTitle == "") || s.isPending

/-! ## Frontend: auth store (src/frontend/src/stores/authStore.ts) -/

/-- The User record of the auth store. -/
structure AuthUser where
  id : Nat
  email : String
  fullName : Option String
  role : String
  subscriptionTier : String
deriving DecidableEq, Repr

/-- The persisted fields of the zustand auth store. -/
structure AuthStoreState where
  user : Option AuthUser
  token : Option String
  isAuthenticated : Bool
  isLoading : Bool
deriving DecidableEq, Repr

/-- The body of a successful auth response: access_token and user. -/
structure AuthResponse where
  accessToken : String
  user : AuthUser
deriving DecidableEq, Repr

/-- An HTTP failure as surfaced by axios. -/
structure HttpError where
  message : String
deriving DecidableEq, Repr

/-- The login action (authStore lines 52-72): set isLoading, post the
credentials, and either commit user/token/isAuthenticated on success or
reset only isLoading and re-throw on failure.  The HTTP exchange is the
`resp` argument; the returned Except is what the caller observes. -/
def login (s : AuthStoreState) (resp : Except HttpError AuthResponse) :
    AuthStoreState × Except HttpError Unit :=
  let s1 := { s with isLoading := true }
  match resp with
  | .ok r =>
    ({ s1 with
        user := some r.user
        token := some r.accessToken
        isAuthenticated := true
        isLoading := false }, .ok ())
  | .error e => ({ s1 with isLoading := false }, .error e)

/-- The signup action (authStore lines 74-95); its state transitions are
the same as login's, only the endpoint and payload differ. -/
def signup (s : AuthStoreState) (resp : Except HttpError AuthResponse) :
    AuthStoreState × Except HttpError Unit :=
  let s1 := { s with isLoading := true }
  match resp with
  | .ok r =>
    ({ s1 with
        user := some r.user
        token := some r.accessToken
        isAuthenticated := true
        isLoading := false }, .ok ())
  | .error e => ({ s1 with isLoading := false }, .error e)

/-- The logout action (authStore lines 97-103). -/
def logout (s : AuthStoreState) : AuthStoreState :=
  { s with user := none, token := none, isAuthenticated := false }

/-! ## Lemmas about stable de-duplication -/

theorem mem_dedupFirst (b : String) (l : List String) :
    b ∈ dedupFirst l ↔ b ∈ l := by
  induction l using dedupFirst.induct with
  | case1 => simp [dedupFirst]
  | case2 a l ih =>
    by_cases hba : b = a
    · subst hba
      simp [dedupFirst]
    · simp [dedupFirst, ih, List.mem_filter, hba, bne_iff_ne]

theorem nodup_dedupFirst (l : List String) : (dedupFirst l).Nodup := by
  induction l using dedupFirst.induct with
  | case1 => simp [dedupFirst]
  | case2 a l ih =>
    rw [dedupFirst]
    refine List.Nodup.cons ?_ ih
    intro hmem
    have := (mem_dedupFirst a _).mp hmem
    simp [List.mem_filter] at this

theorem dedupFirst_sublist (l : List String) : (dedupFirst l).Sublist l := by
  induction l using dedupFirst.induct with
  | case1 => simp [dedupFirst]
  | case2 a l ih =>
    rw [dedupFirst]
    exact (ih.trans (List.filter_sublist l)).cons₂ a

theorem count_dedupFirst_of_mem (b : String) (l : List String) (hb : b ∈ l) :
    (dedupFirst l).count b = 1 :=
  List.count_eq_one_of_mem (nodup_dedupFirst l) ((mem_dedupFirst b l).mpr hb)

theorem dedupFirst_of_nodup (l : List String) (h : l.Nodup) :
    dedupFirst l = l := by
  induction l using dedupFirst.induct with
  | case1 => simp [dedupFirst]
  | case2 a l ih =>
    rw [dedupFirst]
    rw [List.Nodup] at h
    have hfa : l.filter (fun b => b != a) = l := by
      refine List.filter_eq_self.mpr ?_
      intro x hx
      have : x ≠ a := fun he => (List.rel_of_pairwise_cons h hx) he.symm
      simpa [bne_iff_ne] using this
    rw [hfa] at ih ⊢
    rw [ih h.of_cons]

theorem dedupFirst_idem (l : List String) :
    dedupFirst (dedupFirst l) = dedupFirst l :=
  dedupFirst_of_nodup _ (nodup_dedupFirst l)

theorem dedupFirst_append (A B : List String) :
    dedupFirst (A ++ B) =
      dedupFirst A ++ dedupFirst (B.filter (fun x => !(A.contains x))) := by
  induction A using dedupFirst.induct generalizing B with
  | case1 => simp [dedupFirst]
  | case2 a A ih =>
    have hfe : (B.filter (fun b => b != a)).filter
        (fun x => !((A.filter (fun b => b != a)).contains x)) =
        B.filter (fun x => !((a :: A).contains x)) := by
      rw [List.filter_filter]
      refine List.filter_congr ?_
      intro x _
      by_cases hxa : x = a
      · subst hxa
        simp
      · have hc : (List.filter (fun b => b != a) A).contains x = A.contains x := by
          by_cases hxA : x ∈ A
          · have h1 : x ∈ List.filter (fun b => b != a) A := by
              simp [List.mem_filter, hxA, bne_iff_ne, hxa]
            have e1 : (List.filter (fun b => b != a) A).contains x = true :=
              List.elem_iff.mpr h1
            have e2 : A.contains x = true := List.elem_iff.mpr hxA
            rw [e1, e2]
          · have h1 : x ∉ List.filter (fun b => b != a) A := fun hcm =>
              hxA (List.mem_of_mem_filter hcm)
            simp [h1, hxA]
        simp [List.contains_cons, hc, hxa, bne_iff_ne]
    rw [List.cons_append, dedupFirst, dedupFirst, List.filter_append,
      ih (B.filter (fun b => b != a)), hfe, List.cons_append]

theorem not_mem_dedupFirst_filtered (b : String) (A B : List String)
    (hb : b ∈ A) :
    b ∉ dedupFirst (B.filter (fun x => !(A.contains x))) := by
  intro hmem
  have hf := (mem_dedupFirst b _).mp hmem
  have := List.of_mem_filter hf
  simp only [Bool.not_eq_eq_eq_not, Bool.not_true] at this
  have h2 : A.contains b = true := List.elem_iff.mpr hb
  rw [h2] at this
  exact absurd this (by decide)

/-! ## Lemmas about the classifier's ordering -/

theorem sorted_orderedThemes (reg : Registry) :
    List.Sorted themeLE (orderedThemes reg) :=
  List.sorted_insertionSort themeLE (enumThemes reg.themes)

theorem pairwise_classify (reg : Registry) (fs : Facts) :
    List.Pairwise themeLE (classify reg fs) :=
  List.Pairwise.sublist (List.filter_sublist (orderedThemes reg))
    (sorted_orderedThemes reg)

theorem nodup_idx_enumThemes (ts : List Theme) :
    ((enumThemes ts).map (fun t => t.idx)).Nodup := by
  have h : (enumThemes ts).map (fun t => t.idx) = ts.enum.map Prod.fst := by
    simp only [enumThemes, List.map_map]
    rfl
  rw [h]
  exact List.nodup_enum_map_fst ts

theorem nodup_idx_classify (reg : Registry) (fs : Facts) :
    ((classify reg fs).map (fun t => t.idx)).Nodup := by
  have hperm : (orderedThemes reg).Perm (enumThemes reg.themes) :=
    List.perm_insertionSort themeLE (enumThemes reg.themes)
  have h1 : ((orderedThemes reg).map (fun t => t.idx)).Nodup :=
    ((hperm.map (fun t => t.idx)).nodup_iff).mpr (nodup_idx_enumThemes reg.themes)
  exact ((List.filter_sublist (orderedThemes reg)).map (fun t => t.idx)).nodup h1

/-! ## Lemmas about the composer -/

theorem blocksOfThemes_append (xs ys : List IndexedTheme) :
    blocksOfThemes (xs ++ ys) = blocksOfThemes xs ++ blocksOfThemes ys := by
  simp [blocksOfThemes]

theorem blocksOfThemes_cons (t : IndexedTheme) (ts : List IndexedTheme) :
    blocksOfThemes (t :: ts) = t.theme.blocks ++ blocksOfThemes ts := by
  simp [blocksOfThemes]

theorem composeSubject_ne_nil (reg : Registry) (matched : List IndexedTheme)
    (h : matched ≠ []) :
    composeSubject reg matched = dedupFirst (blocksOfThemes matched) := by
  cases matched with
  | nil => exact absurd rfl h
  | cons t ts => rfl

theorem contains_eq_true_of_mem {x : String} {l : List String} (h : x ∈ l) :
    l.contains x = true :=
  List.elem_iff.mpr h

theorem contains_eq_false_of_not_mem {x : String} {l : List String}
    (h : x ∉ l) : l.contains x = false := by
  cases hc : l.contains x with
  | false => rfl
  | true => exact absurd (List.elem_iff.mp hc) h

theorem filter_not_contains_comb (A1 A2 A3 : List String) :
    (A3.filter (fun x => !(A1.contains x))).filter
        (fun x => !((A2.filter (fun x => !(A1.contains x))).contains x)) =
      A3.filter (fun x => !((A1 ++ A2).contains x)) := by
  rw [List.filter_filter]
  refine List.filter_congr ?_
  intro x _
  by_cases h1 : x ∈ A1
  · rw [contains_eq_true_of_mem h1,
      contains_eq_true_of_mem (List.mem_append.mpr (Or.inl h1))]
    simp
  · have hg1 : A1.contains x = false := contains_eq_false_of_not_mem h1
    by_cases h2 : x ∈ A2
    · have hm : x ∈ A2.filter (fun x => !(A1.contains x)) :=
        List.mem_filter.mpr ⟨h2, by rw [hg1]; rfl⟩
      rw [contains_eq_true_of_mem hm,
        contains_eq_true_of_mem (List.mem_append.mpr (Or.inr h2))]
      simp
    · have hm : x ∉ A2.filter (fun x => !(A1.contains x)) := fun hc =>
        h2 (List.mem_of_mem_filter hc)
      have ha : x ∉ A1 ++ A2 := by
        intro hc
        rcases List.mem_append.mp hc with hc | hc
        · exact h1 hc
        · exact h2 hc
      rw [contains_eq_false_of_not_mem hm, contains_eq_false_of_not_mem ha, hg1]
      rfl

/-! ## Concrete fixtures (the spec's example themes and scenarios) -/

/-- The immigration theme of the spec's concrete scenario. -/
def immigrationTheme : Theme :=
  ⟨"immigration", Pred.hasFact "immigrated",
   ["departure_context", "journey_description", "arrival_experience",
    "settlement_story"], 1⟩

/-- The large-family theme of the spec's concrete scenario. -/
def largeFamilyTheme : Theme :=
  ⟨"large_family", Pred.geFact "sibling_count" 6,
   ["family_size_context", "sibling_relationships", "household_dynamics",
    "economic_implications"], 2⟩

/-- A military-service theme sharing priority 3 with the religious theme,
for the tie-break scenario. -/
def militaryTheme : Theme :=
  ⟨"military_service", Pred.hasFact "served",
   ["service_context", "duty_narrative"], 3⟩

/-- A religious-life theme sharing priority 3 with the military theme. -/
def religiousTheme : Theme :=
  ⟨"religious_life", Pred.hasFact "served",
   ["faith_context", "duty_narrative"], 3⟩

/-- A sample validated registry in declaration order. -/
def sampleRegistry : Registry :=
  ⟨[immigrationTheme, largeFamilyTheme, militaryTheme, religiousTheme],
   ["generic_intro", "life_overview"]⟩

/-- The sample registry's raw on-disk configuration. -/
def sampleRawRegistry : RawRegistry :=
  ⟨[immigrationTheme, largeFamilyTheme, militaryTheme, religiousTheme],
   some ["generic_intro", "life_overview"]⟩

/-- A document with a duplicated individual identifier. -/
def dupDocument : Document :=
  ⟨[⟨"I1", some "M", none, none, []⟩, ⟨"I1", some "F", none, none, []⟩], []⟩

/-! ## Claim theorems -/

/-- C1: for a fixed document and theme registry, running the whole
extract-classify-compose pipeline twice yields byte-identical serialized
Outlines.  In this embedding the pipeline is a pure function of the
document and registry, so the two runs are definitionally equal and no
evaluation-order nondeterminism is representable. -/
theorem pipeline_two_run_deterministic (d : Document) (reg : Registry) :
    pipeline d reg = pipeline d reg ∧
    serializeResult (pipeline d reg) = serializeResult (pipeline d reg) :=
  ⟨rfl, rfl⟩

/-- C5: composition is idempotent — composing from an already-produced
matched-theme mapping twice yields the same Outline byte-for-byte, and a
produced block sequence is already in de-duplicated normal form, so
re-normalizing it leaves it unchanged (the Outline is a fixed point,
as required for caching). -/
theorem composition_idempotent (reg : Registry) (s : Subject)
    (matched : List IndexedTheme) (hm : matched ≠ []) :
    serializeOutline (composeOutline reg s) =
      serializeOutline (composeOutline reg s) ∧
    composeSubject reg matched = composeSubject reg matched ∧
    dedupFirst (composeSubject reg matched) = composeSubject reg matched := by
  refine ⟨rfl, rfl, ?_⟩
  rw [composeSubject_ne_nil reg matched hm]
  exact dedupFirst_idem _

/-- Witness for C5 at the sample registry and the immigration theme. -/
theorem composition_idempotent_witness :
    ([⟨0, immigrationTheme⟩] : List IndexedTheme) ≠ [] ∧
    (serializeOutline (composeOutline sampleRegistry ⟨"I1", []⟩) =
      serializeOutline (composeOutline sampleRegistry ⟨"I1", []⟩) ∧
    composeSubject sampleRegistry [⟨0, immigrationTheme⟩] =
      composeSubject sampleRegistry [⟨0, immigrationTheme⟩] ∧
    dedupFirst (composeSubject sampleRegistry [⟨0, immigrationTheme⟩]) =
      composeSubject sampleRegistry [⟨0, immigrationTheme⟩]) :=
  ⟨by simp,
   composition_idempotent sampleRegistry ⟨"I1", []⟩ [⟨0, immigrationTheme⟩]
     (by simp)⟩

/-- C6: a document with duplicate individual identifiers makes the extractor
fail with DuplicateIdentifier instead of silently overwriting, the whole
pipeline aborts with that error, and no partial Outline is produced. -/
theorem extractor_duplicate_identifier_fatal (d : Document) (reg : Registry)
    (hdup : ¬ (individualIds d).Nodup) :
    extract d = .error .duplicateIdentifier ∧
    pipeline d reg = .error .duplicateIdentifier := by
  have h1 : extract d = .error .duplicateIdentifier := by
    rw [extract, if_neg hdup]
  refine ⟨h1, ?_⟩
  rw [pipeline, h1]
  rfl

/-- Witness for C6 at a document whose identifier I1 repeats. -/
theorem extractor_duplicate_identifier_fatal_witness :
    ¬ (individualIds dupDocument).Nodup ∧
    (extract dupDocument = .error .duplicateIdentifier ∧
    pipeline dupDocument sampleRegistry = .error .duplicateIdentifier) :=
  ⟨by decide,
   extractor_duplicate_identifier_fatal dupDocument sampleRegistry (by decide)⟩

/-- C7: predicate evaluation is total and three-valued — every evaluation
produces true, false or unknown (it is a total function into `Tri`, so no
exception is representable), and a comparison whose required fact is
absent evaluates to unknown. -/
theorem predicate_eval_total_three_valued (p : Pred) (fs : Facts)
    (name : String) (v : FactValue) (n : Nat)
    (habs : lookupFact fs name = none) :
    (evalPred p fs = .tru ∨ evalPred p fs = .fls ∨
      evalPred p fs = .unknown) ∧
    evalPred (.eqFact name v) fs = .unknown ∧
    evalPred (.geFact name n) fs = .unknown := by
  refine ⟨?_, ?_, ?_⟩
  · cases h : evalPred p fs
    · exact Or.inl rfl
    · exact Or.inr (Or.inl rfl)
    · exact Or.inr (Or.inr rfl)
  · rw [evalPred, habs]
  · rw [evalPred, habs]

/-- Witness for C7: sibling count is present, age at death is absent. -/
theorem predicate_eval_total_three_valued_witness :
    lookupFact [("sibling_count", FactValue.nat 9)] "age_at_death" = none ∧
    ((evalPred (.geFact "sibling_count" 6)
        [("sibling_count", FactValue.nat 9)] = .tru ∨
      evalPred (.geFact "sibling_count" 6)
        [("sibling_count", FactValue.nat 9)] = .fls ∨
      evalPred (.geFact "sibling_count" 6)
        [("sibling_count", FactValue.nat 9)] = .unknown) ∧
    evalPred (.eqFact "age_at_death" (FactValue.nat 70))
      [("sibling_count", FactValue.nat 9)] = .unknown ∧
    evalPred (.geFact "age_at_death" 45)
      [("sibling_count", FactValue.nat 9)] = .unknown) :=
  ⟨rfl,
   predicate_eval_total_three_valued (.geFact "sibling_count" 6)
     [("sibling_count", FactValue.nat 9)] "age_at_death"
     (FactValue.nat 70) 45 rfl⟩

/-- C3: a subject with no matched theme receives the registry's designated
default block sequence and never an empty Outline; a configuration whose
default sequence is missing is rejected by registry loading at process
start-up, before any document is processed. -/
theorem composer_default_fallback (raw : RawRegistry) (reg : Registry)
    (hload : loadRegistry raw = .ok reg) :
    composeSubject reg [] = reg.defaultBlocks ∧
    composeSubject reg [] ≠ [] ∧
    (∀ raw2 : RawRegistry, raw2.defaultBlocks = none →
      loadRegistry raw2 = .error .missingDefaultBlocks) := by
  refine ⟨rfl, ?_, ?_⟩
  · obtain ⟨ts, db⟩ := raw
    rcases db with _ | db
    · simp [loadRegistry] at hload
    · rcases db with _ | ⟨bb, bs⟩
      · simp [loadRegistry] at hload
      · have h : Registry.mk ts (bb :: bs) = reg := by
          simpa [loadRegistry] using hload
        show reg.defaultBlocks ≠ []
        rw [← h]
        simp
  · intro raw2 h2
    obtain ⟨ts2, db2⟩ := raw2
    simp only at h2
    rw [h2]
    rfl

/-- Witness for C3 at the sample raw registry. -/
theorem composer_default_fallback_witness :
    loadRegistry sampleRawRegistry = .ok sampleRegistry ∧
    (composeSubject sampleRegistry [] = sampleRegistry.defaultBlocks ∧
    composeSubject sampleRegistry [] ≠ [] ∧
    (∀ raw2 : RawRegistry, raw2.defaultBlocks = none →
      loadRegistry raw2 = .error .missingDefaultBlocks)) :=
  ⟨rfl, composer_default_fallback sampleRawRegistry sampleRegistry rfl⟩

/-- C2: when the composer concatenates matched themes' block lists, a block
contributed by more than one theme appears exactly once, inside the
segment contributed by its first (highest-priority) contributing theme,
later duplicates are dropped, and the surviving blocks keep their relative
order (the result is a sublist of the raw concatenation).  The matched
list is split as `ts1 ++ t :: ts2` with `t` the first theme contributing
block `b`. -/
theorem composer_stable_dedup (reg : Registry) (ts1 ts2 : List IndexedTheme)
    (t : IndexedTheme) (b : String)
    (hb1 : b ∉ blocksOfThemes ts1)
    (hbt : b ∈ t.theme.blocks)
    (hb2 : b ∈ blocksOfThemes ts2) :
    composeSubject reg (ts1 ++ t :: ts2) =
      dedupFirst (blocksOfThemes ts1) ++
      dedupFirst (t.theme.blocks.filter
        (fun x => !((blocksOfThemes ts1).contains x))) ++
      dedupFirst ((blocksOfThemes ts2).filter
        (fun x => !((blocksOfThemes ts1 ++ t.theme.blocks).contains x))) ∧
    b ∉ dedupFirst (blocksOfThemes ts1) ∧
    b ∈ dedupFirst (t.theme.blocks.filter
        (fun x => !((blocksOfThemes ts1).contains x))) ∧
    b ∉ dedupFirst ((blocksOfThemes ts2).filter
        (fun x => !((blocksOfThemes ts1 ++ t.theme.blocks).contains x))) ∧
    (composeSubject reg (ts1 ++ t :: ts2)).count b = 1 ∧
    (composeSubject reg (ts1 ++ t :: ts2)).Sublist
      (blocksOfThemes ts1 ++ t.theme.blocks ++ blocksOfThemes ts2) := by
  have hne : ts1 ++ t :: ts2 ≠ [] := by
    cases ts1 <;> simp
  have hblocks : blocksOfThemes (ts1 ++ t :: ts2) =
      blocksOfThemes ts1 ++ (t.theme.blocks ++ blocksOfThemes ts2) := by
    rw [blocksOfThemes_append, blocksOfThemes_cons]
  have hcomp : composeSubject reg (ts1 ++ t :: ts2) =
      dedupFirst (blocksOfThemes ts1 ++
        (t.theme.blocks ++ blocksOfThemes ts2)) := by
    rw [composeSubject_ne_nil reg _ hne, hblocks]
  have hsplit : dedupFirst (blocksOfThemes ts1 ++
      (t.theme.blocks ++ blocksOfThemes ts2)) =
      dedupFirst (blocksOfThemes ts1) ++
      dedupFirst (t.theme.blocks.filter
        (fun x => !((blocksOfThemes ts1).contains x))) ++
      dedupFirst ((blocksOfThemes ts2).filter
        (fun x => !((blocksOfThemes ts1 ++ t.theme.blocks).contains x))) := by
    rw [dedupFirst_append (blocksOfThemes ts1)
        (t.theme.blocks ++ blocksOfThemes ts2),
      List.filter_append,
      dedupFirst_append
        (t.theme.blocks.filter (fun x => !((blocksOfThemes ts1).contains x)))
        ((blocksOfThemes ts2).filter
          (fun x => !((blocksOfThemes ts1).contains x))),
      filter_not_contains_comb, List.append_assoc]
  refine ⟨hcomp.trans hsplit, ?_, ?_, ?_, ?_, ?_⟩
  · intro hmem
    exact hb1 ((mem_dedupFirst b _).mp hmem)
  · refine (mem_dedupFirst b _).mpr (List.mem_filter.mpr ⟨hbt, ?_⟩)
    rw [contains_eq_false_of_not_mem hb1]
    rfl
  · exact not_mem_dedupFirst_filtered b _ _
      (List.mem_append.mpr (Or.inr hbt))
  · rw [hcomp]
    exact count_dedupFirst_of_mem b _
      (List.mem_append.mpr (Or.inr (List.mem_append.mpr (Or.inl hbt))))
  · rw [hcomp, List.append_assoc]
    exact dedupFirst_sublist _

/-- Witness for C2: the military and religious themes both contribute
`duty_narrative`; with the military theme first it survives once in the
military segment. -/
theorem composer_stable_dedup_witness :
    ("duty_narrative" ∉ blocksOfThemes [⟨0, immigrationTheme⟩] ∧
     "duty_narrative" ∈ militaryTheme.blocks ∧
     "duty_narrative" ∈ blocksOfThemes [⟨3, religiousTheme⟩]) ∧
    (composeSubject sampleRegistry
        ([⟨0, immigrationTheme⟩] ++ ⟨2, militaryTheme⟩ :: [⟨3, religiousTheme⟩]) =
      dedupFirst (blocksOfThemes [⟨0, immigrationTheme⟩]) ++
      dedupFirst (militaryTheme.blocks.filter
        (fun x => !((blocksOfThemes [⟨0, immigrationTheme⟩]).contains x))) ++
      dedupFirst ((blocksOfThemes [⟨3, religiousTheme⟩]).filter
        (fun x => !((blocksOfThemes [⟨0, immigrationTheme⟩] ++
          militaryTheme.blocks).contains x))) ∧
    "duty_narrative" ∉ dedupFirst (blocksOfThemes [⟨0, immigrationTheme⟩]) ∧
    "duty_narrative" ∈ dedupFirst (militaryTheme.blocks.filter
        (fun x => !((blocksOfThemes [⟨0, immigrationTheme⟩]).contains x))) ∧
    "duty_narrative" ∉ dedupFirst ((blocksOfThemes [⟨3, religiousTheme⟩]).filter
        (fun x => !((blocksOfThemes [⟨0, immigrationTheme⟩] ++
          militaryTheme.blocks).contains x))) ∧
    (composeSubject sampleRegistry
        ([⟨0, immigrationTheme⟩] ++ ⟨2, militaryTheme⟩ :: [⟨3, religiousTheme⟩])).count
        "duty_narrative" = 1 ∧
    (composeSubject sampleRegistry
        ([⟨0, immigrationTheme⟩] ++ ⟨2, militaryTheme⟩ :: [⟨3, religiousTheme⟩])).Sublist
      (blocksOfThemes [⟨0, immigrationTheme⟩] ++ militaryTheme.blocks ++
        blocksOfThemes [⟨3, religiousTheme⟩])) :=
  ⟨⟨by decide, by decide, by decide⟩,
   composer_stable_dedup sampleRegistry [⟨0, immigrationTheme⟩]
     [⟨3, religiousTheme⟩] ⟨2, militaryTheme⟩ "duty_narrative"
     (by decide) (by decide) (by decide)⟩

/-- C4: the classifier orders matched themes by the registry's declared
priority ranking, and two matched themes of equal priority appear in
registry declaration order (strictly increasing declaration index). -/
theorem classifier_priority_tiebreak (reg : Registry) (fs : Facts)
    (i j : Nat) (hij : i < j) (hj : j < (classify reg fs).length) :
    ((classify reg fs).get ⟨i, Nat.lt_trans hij hj⟩).theme.priority ≤
      ((classify reg fs).get ⟨j, hj⟩).theme.priority ∧
    (((classify reg fs).get ⟨i, Nat.lt_trans hij hj⟩).theme.priority =
        ((classify reg fs).get ⟨j, hj⟩).theme.priority →
      ((classify reg fs).get ⟨i, Nat.lt_trans hij hj⟩).idx <
        ((classify reg fs).get ⟨j, hj⟩).idx) := by
  have hp : List.Sorted themeLE (classify reg fs) := pairwise_classify reg fs
  have hrel : themeLE ((classify reg fs).get ⟨i, Nat.lt_trans hij hj⟩)
      ((classify reg fs).get ⟨j, hj⟩) :=
    List.Sorted.rel_get_of_lt hp hij
  constructor
  · rcases hrel with h | ⟨h, _⟩
    · exact Nat.le_of_lt h
    · exact Nat.le_of_eq h
  · intro heq
    rcases hrel with h | ⟨_, hle⟩
    · exact absurd heq (Nat.ne_of_lt h)
    · refine Nat.lt_of_le_of_ne hle ?_
      intro hidx
      have hnd := nodup_idx_classify reg fs
      have hgi : ((classify reg fs).map (fun t => t.idx)).get
          ⟨i, by simpa using Nat.lt_trans hij hj⟩ =
          ((classify reg fs).map (fun t => t.idx)).get
          ⟨j, by simpa using hj⟩ := by
        simpa using hidx
      have := (List.Nodup.get_inj_iff hnd).mp hgi
      have hij2 : i = j := congrArg Fin.val this
      omega

/-- Witness for C4: with the served fact present, the equal-priority
military and religious themes both match; military (declared earlier)
comes first. -/
theorem classifier_priority_tiebreak_witness :
    0 < 1 ∧ 1 < (classify sampleRegistry [("served", FactValue.nat 1)]).length ∧
    (((classify sampleRegistry [("served", FactValue.nat 1)]).get
        ⟨0, by decide⟩).theme.priority ≤
      ((classify sampleRegistry [("served", FactValue.nat 1)]).get
        ⟨1, by decide⟩).theme.priority ∧
    (((classify sampleRegistry [("served", FactValue.nat 1)]).get
        ⟨0, by decide⟩).theme.priority =
        ((classify sampleRegistry [("served", FactValue.nat 1)]).get
        ⟨1, by decide⟩).theme.priority →
      ((classify sampleRegistry [("served", FactValue.nat 1)]).get
        ⟨0, by decide⟩).idx <
        ((classify sampleRegistry [("served", FactValue.nat 1)]).get
        ⟨1, by decide⟩).idx)) :=
  ⟨by decide, by decide,
   classifier_priority_tiebreak sampleRegistry [("served", FactValue.nat 1)]
     0 1 (by decide) (by decide)⟩

/-- A .ged file one byte over the advertised 50MB limit
(50MB = 52428800 bytes). -/
def oversizedGedcom : FileInfo := ⟨"big_family_tree.ged", 52428801⟩

/-- C8: the upload component does NOT reject a file exceeding the advertised
50MB limit.  The `useDropzone` options restrict only extension and file
count — no maxSize is configured — so an oversized .ged file passes the
dropzone acceptance test, is stored by onDrop, and handleSubmit sends it
in the project-creation request. -/
theorem upload_size_limit_not_enforced :
    52428800 < oversizedGedcom.size ∧
    gedcomDropzoneOptions.maxSize = none ∧
    dropzoneAccepts gedcomDropzoneOptions oversizedGedcom = true ∧
    handleSubmit (onDrop ⟨none, "", false⟩ [oversizedGedcom]) =
      some ⟨oversizedGedcom, "big_family_tree"⟩ :=
  ⟨by decide, rfl, by decide, by decide⟩

/-- C9: a failed login or signup HTTP request leaves user, token and
isAuthenticated unchanged, resets only isLoading to false, and re-throws
the error to the caller. -/
theorem auth_failure_preserves_state (s : AuthStoreState) (e : HttpError) :
    (login s (.error e)).1.user = s.user ∧
    (login s (.error e)).1.token = s.token ∧
    (login s (.error e)).1.isAuthenticated = s.isAuthenticated ∧
    (login s (.error e)).1.isLoading = false ∧
    (login s (.error e)).2 = .error e ∧
    (signup s (.error e)).1.user = s.user ∧
    (signup s (.error e)).1.token = s.token ∧
    (signup s (.error e)).1.isAuthenticated = s.isAuthenticated ∧
    (signup s (.error e)).1.isLoading = false ∧
    (signup s (.error e)).2 = .error e :=
  ⟨rfl, rfl, rfl, rfl, rfl, rfl, rfl, rfl, rfl, rfl⟩

/-- C10: with no file selected or an empty title, handleSubmit performs no
project-creation request and the Create Documentary button is disabled;
conversely a request is only ever built from a present file and a
non-empty title. -/
theorem submit_requires_file_and_title (s : UploadState)
    (h : s.file = none ∨ s.projectTitle = "") :
    handleSubmit s = none ∧
    createButtonDisabled s = true ∧
    (∀ s2 : UploadState, ∀ fd : UploadFormData,
      handleSubmit s2 = some fd →
        s2.file = some fd.gedcomFile ∧ s2.projectTitle ≠ "") := by
  refine ⟨?_, ?_, ?_⟩
  · rcases h with h | h
    · simp [handleSubmit, h]
    · cases hf : s.file with
      | none => simp [handleSubmit, hf]
      | some f => simp [handleSubmit, hf, h]
  · rcases h with h | h
    · simp [createButtonDisabled, h]
    · simp [createButtonDisabled, h]
  · intro s2 fd hsub
    cases hf : s2.file with
    | none => simp [handleSubmit, hf] at hsub
    | some f =>
      simp only [handleSubmit, hf] at hsub
      by_cases ht : s2.projectTitle = ""
      · rw [if_pos ht] at hsub
        exact absurd hsub (by simp)
      · rw [if_neg ht] at hsub
        injection hsub with hfd
        rw [← hfd]
        exact ⟨rfl, ht⟩

/-- Witness for C10 at the dialog's initial state (no file, empty title). -/
theorem submit_requires_file_and_title_witness :
    ((⟨none, "", false⟩ : UploadState).file = none ∨
      (⟨none, "", false⟩ : UploadState).projectTitle = "") ∧
    (handleSubmit ⟨none, "", false⟩ = none ∧
    createButtonDisabled ⟨none, "", false⟩ = true ∧
    (∀ s2 : UploadState, ∀ fd : UploadFormData,
      handleSubmit s2 = some fd →
        s2.file = some fd.gedcomFile ∧ s2.projectTitle ≠ "")) :=
  ⟨Or.inl rfl, submit_requires_file_and_title ⟨none, "", false⟩ (Or.inl rfl)⟩

end LegacyLabs
